import Mathlib

/-!
Verification development for the formularios server (src/server/index.ts).
The HTTP handlers are embedded as pure Lean functions over an explicit
database state; JavaScript string primitives (trim, toUpperCase, parseInt)
are modelled over the underlying character lists.
-/

namespace Formularios

/-- Characters treated as whitespace by the JavaScript string trim operation
and by parseInt (tab, line feed, vertical tab, form feed, carriage return,
space, no-break space, line separator, paragraph separator, byte order mark). -/
def isJsWhitespace (c : Char) : Bool :=
  [9, 10, 11, 12, 13, 32, 160, 8232, 8233, 65279].contains c.toNat

/-- Removal of leading and trailing whitespace from a character list. -/
def trimChars (l : List Char) : List Char :=
  ((l.dropWhile isJsWhitespace).reverse.dropWhile isJsWhitespace).reverse

/-- Model of the JavaScript expression s.trim(). -/
def jsTrim (s : String) : String :=
  String.mk (trimChars s.data)

/-- Model of the JavaScript expression s.toUpperCase(), as a character-wise
upper-casing map. -/
def jsToUpperCase (s : String) : String :=
  String.mk (s.data.map Char.toUpper)

/-- Normalization used by the intra-batch duplicate scan of
POST /api/registros: registro.identificacion.trim().toUpperCase(). -/
def normId (s : String) : String :=
  jsToUpperCase (jsTrim s)

/-- One candidate record of the POST /api/registros body after schema parsing
(zod registrosSchema), with detalle already defaulted to the empty string. -/
structure RegistroEntrada where
  dependencia : String
  identificacion : String
  grado : String
  nombresCompletos : String
  motivo : String
  detalle : String
deriving Repr, DecidableEq

/-- One element of the valores array built by POST /api/registros: every text
field trimmed and the normalized owning usuario attached. -/
structure Valor where
  dependencia : String
  identificacion : String
  grado : String
  nombresCompletos : String
  motivo : String
  detalle : String
  usuario : String
deriving Repr, DecidableEq

/-- A persisted row of the registros table (drizzle schema): serial id, the
text columns, and the creation timestamp modelled as an abstract tick. -/
structure StoredRegistro where
  id : Nat
  dependencia : String
  identificacion : String
  grado : String
  nombresCompletos : String
  motivo : String
  detalle : String
  usuario : String
  creadoEn : Nat
deriving Repr, DecidableEq

/-- The registros table together with the state of its serial id sequence. -/
structure DB where
  rows : List StoredRegistro
  nextId : Nat
deriving Repr, DecidableEq

/-- The zod registrosSchema constraints on one candidate record: every
required field is a string of length at least one (detalle is optional and
defaulted, with no length constraint). -/
def validRegistro (r : RegistroEntrada) : Bool :=
  1 ≤ r.dependencia.length && 1 ≤ r.identificacion.length &&
    1 ≤ r.grado.length && 1 ≤ r.nombresCompletos.length && 1 ≤ r.motivo.length

/-- The zod registrosSchema at the top level: usuario a non-empty string, the
registros array non-empty, and every element valid. -/
def validRegistrosBody (usuario : String) (rs : List RegistroEntrada) : Bool :=
  1 ≤ usuario.length && 1 ≤ rs.length && rs.all validRegistro

/-- The valores mapping of POST /api/registros: each text field trimmed and
the normalized usuario attached (the creadoEn timestamp is added at
insertion time by insertValores). -/
def mkValor (normalizedUsuario : String) (r : RegistroEntrada) : Valor :=
  { dependencia := jsTrim r.dependencia
    identificacion := jsTrim r.identificacion
    grado := jsTrim r.grado
    nombresCompletos := jsTrim r.nombresCompletos
    motivo := jsTrim r.motivo
    detalle := jsTrim r.detalle
    usuario := normalizedUsuario }

/-- The full valores array for a submitted batch. -/
def mkValores (usuario : String) (rs : List RegistroEntrada) : List Valor :=
  rs.map (mkValor (jsTrim usuario))

/-- Lookup in the insertion-ordered seenIdentificaciones map; entries are
keyed by the normalized identification and carry the raw identification and
the dependencia of the first occurrence. -/
def lookupSeen (n : String) :
    List (String × String × String) → Option (String × String)
  | [] => none
  | (k, v) :: rest => if k = n then some v else lookupSeen n rest

/-- The intra-batch duplicate scan of POST /api/registros: walk the valores
in order, remembering the first occurrence of every normalized
identification; on the first repeat return the repeated raw identification
together with the dependencia of its first occurrence. -/
def scanDuplicados :
    List Valor → List (String × String × String) → Option (String × String)
  | [], _ => none
  | r :: rest, seen =>
    match lookupSeen (normId r.identificacion) seen with
    | some first => some (r.identificacion, first.2)
    | none =>
        scanDuplicados rest
          (seen ++ [(normId r.identificacion, (r.identificacion, r.dependencia))])

/-- The seenIdentificaciones map as it stands after scanning a prefix of the
valores in which no normalized identification repeats. -/
def seenOf (pre : List Valor) : List (String × String × String) :=
  pre.map (fun v => (normId v.identificacion, (v.identificacion, v.dependencia)))

/-- Model of Array.from(new Set(l)): duplicates removed, first occurrences
kept in order. -/
def dedupFirst : List String → List String
  | [] => []
  | x :: rest => x :: (dedupFirst rest).filter (fun y => !(y == x))

/-- Source tag of a 409 conflict payload. -/
inductive ConflictSource where
  | payload
  | database
deriving Repr, DecidableEq

/-- Observable response of POST /api/registros. -/
inductive PostResponse where
  | badRequest (message : String)
  | conflictResp (identificacion dependencia : String) (source : ConflictSource)
  | created (total : Nat)
deriving Repr, DecidableEq

/-- A stored row built from one valor at a given serial id and timestamp. -/
def storedOfValor (i : Nat) (now : Nat) (v : Valor) : StoredRegistro :=
  { id := i
    dependencia := v.dependencia
    identificacion := v.identificacion
    grado := v.grado
    nombresCompletos := v.nombresCompletos
    motivo := v.motivo
    detalle := v.detalle
    usuario := v.usuario
    creadoEn := now }

/-- Rows produced for the valores by one INSERT, with consecutive serial ids
starting at the given next sequence value. -/
def insertRows (now : Nat) : Nat → List Valor → List StoredRegistro
  | _, [] => []
  | nextId, v :: vs => storedOfValor nextId now v :: insertRows now (nextId + 1) vs

/-- The single multi-row INSERT of the valores: consecutive serial ids are
assigned and all rows are appended in one atomic statement. -/
def insertValores (now : Nat) (db : DB) (vs : List Valor) : DB :=
  { rows := db.rows ++ insertRows now db.nextId vs
    nextId := db.nextId + vs.length }

/-- The POST /api/registros handler: schema validation, the usuario trim
check, the intra-batch duplicate scan, the storage-level duplicate query
(exact match of trimmed candidate identifications against stored ones), and
finally the atomic insert. -/
def postRegistros (now : Nat) (db : DB) (usuario : String)
    (rs : List RegistroEntrada) : PostResponse × DB :=
  if ¬ validRegistrosBody usuario rs then
    (.badRequest "Datos de entrada inválidos", db)
  else if jsTrim usuario = "" then
    (.badRequest "El usuario es obligatorio.", db)
  else
    let valores := mkValores usuario rs
    match scanDuplicados valores [] with
    | some payloadConflict =>
        (.conflictResp payloadConflict.1 payloadConflict.2 .payload, db)
    | none =>
        let uniqueIdentificaciones :=
          dedupFirst (valores.map (fun v => v.identificacion))
        let existingConflicts :=
          if 0 < uniqueIdentificaciones.length then
            db.rows.filter
              (fun s => uniqueIdentificaciones.contains s.identificacion)
          else []
        match existingConflicts with
        | c :: _ =>
            (.conflictResp c.identificacion c.dependencia .database, db)
        | [] =>
            (.created valores.length, insertValores now db valores)

/-- Insertion into a list kept sorted by descending total. -/
def insertByTotalDesc (x : String × Nat) :
    List (String × Nat) → List (String × Nat)
  | [] => [x]
  | y :: rest => if y.2 ≤ x.2 then x :: y :: rest else y :: insertByTotalDesc x rest

/-- Sorting by descending total (model of ORDER BY count(id) DESC; the order
of ties is unspecified in SQL and an insertion sort fixes one order). -/
def sortByTotalDesc (l : List (String × Nat)) : List (String × Nat) :=
  l.foldr insertByTotalDesc []

/-- The aggregation of GET /api/registros/por-dependencia: group the
registros table by dependencia with count(id), ordered by descending count. -/
def porDependencia (rows : List StoredRegistro) : List (String × Nat) :=
  sortByTotalDesc
    ((dedupFirst (rows.map (fun r => r.dependencia))).map
      (fun d => (d, (rows.filter (fun r => r.dependencia == d)).length)))

/-- One column definition of the PDF table. -/
structure ColumnDef where
  header : String
  ratio : Rat
  minWidth : Rat
deriving Repr, DecidableEq

/-- The seven column definitions of GET /api/registros/pdf (accessors are
modelled separately by cellTexts). -/
def columnDefinitions : List ColumnDef :=
  [ { header := "Dependencia", ratio := 0.18, minWidth := 100 }
  , { header := "Identificación", ratio := 0.12, minWidth := 85 }
  , { header := "Grado", ratio := 0.07, minWidth := 55 }
  , { header := "Nombres completos", ratio := 0.19, minWidth := 140 }
  , { header := "Motivo", ratio := 0.18, minWidth := 130 }
  , { header := "Detalle", ratio := 0.16, minWidth := 120 }
  , { header := "Creado en", ratio := 0.10, minWidth := 95 } ]

/-- The greedy width-allocation loop of the PDF renderer: the last column
takes the remaining width as its base, every other column the floor of
bodyWidth times its ratio; each width is raised to the minimum and then
clamped to the remaining width, which decreases accordingly. Returns the
allocated widths and the final remaining width. -/
def allocLoop (bodyWidth : Rat) : Rat → List ColumnDef → List Rat × Rat
  | remaining, [] => ([], remaining)
  | remaining, c :: rest =>
    let base : Rat :=
      if rest.isEmpty then remaining else (Rat.floor (bodyWidth * c.ratio) : Rat)
    let clamped := max base c.minWidth
    let width := if remaining < clamped then remaining else clamped
    let next := allocLoop bodyWidth (remaining - width) rest
    (width :: next.1, next.2)

/-- Adding the leftover remaining width onto the last allocated column. -/
def bumpLast (extra : Rat) : List Rat → List Rat
  | [] => []
  | [w] => [w + extra]
  | w :: x :: ws => w :: bumpLast extra (x :: ws)

/-- The complete column width allocation of GET /api/registros/pdf: the
greedy loop followed by the remainder fix-up on the last column. -/
def columnWidths (bodyWidth : Rat) (defs : List ColumnDef) : List Rat :=
  let alloc := allocLoop bodyWidth bodyWidth defs
  if 0 < alloc.2 ∧ alloc.1 ≠ [] then bumpLast alloc.2 alloc.1 else alloc.1

/-- Abstract drawing operations emitted by the PDF renderer. -/
inductive PdfOp where
  | watermark
  | headerImage
  | text (s : String)
  | tableHeader
  | tableRow (cells : List String)
  | qrImage
deriving Repr, DecidableEq

/-- External pdfkit text metrics and page geometry, abstracted: rowHeightOf
models the per-row height computed from heightOfString plus padding, and
headerAdvance the vertical advance of drawTableHeader. -/
structure PdfMetrics where
  pageHeight : Rat
  marginTop : Rat
  marginBottom : Rat
  headerAdvance : Rat
  rowHeightOf : StoredRegistro → Rat

/-- The cell texts of one table row, in column order (dependencia,
identificacion, grado, nombresCompletos, motivo, detalle with the em-dash
fallback, and the formatted creation date). -/
def cellTexts (formatDate : Nat → String) (r : StoredRegistro) : List String :=
  [ r.dependencia
  , r.identificacion
  , r.grado
  , r.nombresCompletos
  , r.motivo
  , if r.detalle ≠ "" ∧ jsTrim r.detalle ≠ "" then jsTrim r.detalle else "—"
  , formatDate r.creadoEn ]

/-- The ensureSpaceFor helper: when the pending height does not fit above the
bottom margin, a page is added (redrawing the watermark when present and the
table header) and the cursor moves to the top margin plus the header band. -/
def ensureSpaceFor (m : PdfMetrics) (hasWatermark : Bool) (y h : Rat) :
    List PdfOp × Rat :=
  if m.pageHeight - m.marginBottom < y + h then
    ((if hasWatermark then [PdfOp.watermark] else []) ++ [PdfOp.tableHeader],
      m.marginTop + m.headerAdvance)
  else ([], y)

/-- The row-drawing loop of the PDF table: for each record, reserve space
(possibly breaking the page), draw the row, and advance the cursor by the
row height plus the two point gap. Returns the emitted operations and the
final cursor position. -/
def rowLoop (m : PdfMetrics) (hasWatermark : Bool) (formatDate : Nat → String) :
    List StoredRegistro → Nat → Rat → List PdfOp × Rat
  | [], _, y => ([], y)
  | r :: rest, index, y =>
    let rowHeight := m.rowHeightOf r
    let extra : Rat := if index = 0 then 0 else 2
    let brk := ensureSpaceFor m hasWatermark y (rowHeight + extra)
    let tail := rowLoop m hasWatermark formatDate rest (index + 1)
      (brk.2 + rowHeight + 2)
    (brk.1 ++ PdfOp.tableRow (cellTexts formatDate r) :: tail.1, tail.2)

/-- Title line of the report. -/
def tituloReporte : String :=
  "Personal que no laboró en el Referéndum y Consulta Popular 2025"

/-- Message shown when the user has no records. -/
def noRecordsMessage : String := "No existen registros para mostrar."

/-- The operation trace of the GET /api/registros/pdf renderer: watermark and
header band when available, the title and metadata lines, then either the
one-line no-records message, or the table (header, rows with pagination) and
the QR block when the QR buffer was generated. The generated timestamp text
and the verification code are abstract inputs. -/
def renderPdf (m : PdfMetrics) (hasWatermark hasHeader hasQr : Bool)
    (formatDate : Nat → String) (usuario generadoStr verificationCode : String)
    (yStart : Rat) (registrosExistentes : List StoredRegistro) : List PdfOp :=
  let pre :=
    (if hasWatermark then [PdfOp.watermark] else []) ++
    (if hasHeader then [PdfOp.headerImage] else []) ++
    [ PdfOp.text tituloReporte
    , PdfOp.text ("Usuario: " ++ usuario)
    , PdfOp.text ("Generado: " ++ generadoStr)
    , PdfOp.text ("Código de verificación: " ++ verificationCode) ]
  if registrosExistentes.isEmpty then
    pre ++ [PdfOp.text noRecordsMessage]
  else
    let body := rowLoop m hasWatermark formatDate registrosExistentes 0 yStart
    let qrBlock :=
      if hasQr then
        (ensureSpaceFor m hasWatermark body.2 160).1 ++
          [PdfOp.qrImage, PdfOp.text ("Código: " ++ verificationCode)]
      else []
    pre ++ PdfOp.tableHeader :: body.1 ++ qrBlock

/-- Observable response of DELETE /api/registros/:id. -/
inductive DeleteResponse where
  | badRequest (message : String)
  | notFound
  | deleted
deriving Repr, DecidableEq

/-- Value of the longest leading run of decimal digits, none when empty. -/
def digitsVal (cs : List Char) : Option Nat :=
  let ds := cs.takeWhile Char.isDigit
  if ds.isEmpty then none
  else some (ds.foldl (fun acc c => acc * 10 + (c.toNat - 48)) 0)

/-- Model of Number.parseInt(s, 10): skip leading whitespace, read an
optional sign, then the longest leading run of decimal digits; none (NaN)
when that run is empty, ignoring any trailing characters. -/
def jsParseInt (s : String) : Option Int :=
  match s.data.dropWhile isJsWhitespace with
  | [] => none
  | c :: rest =>
    if c = Char.ofNat 45 then (digitsVal rest).map (fun n => -(n : Int))
    else if c = Char.ofNat 43 then (digitsVal rest).map (fun n => (n : Int))
    else (digitsVal (c :: rest)).map (fun n => (n : Int))

/-- The DELETE /api/registros/:id handler: parse the id, require a non-empty
trimmed usuario, then delete the rows matching both the id and the usuario,
answering 404 when nothing matched. -/
def deleteRegistro (db : DB) (idParam : String) (usuarioQuery : Option String) :
    DeleteResponse × DB :=
  let rawUsuario :=
    match usuarioQuery with
    | some u => jsTrim u
    | none => ""
  match jsParseInt idParam with
  | none => (.badRequest "Identificador inválido.", db)
  | some idVal =>
    if rawUsuario = "" then
      (.badRequest "Debe especificar el usuario para eliminar.", db)
    else if (db.rows.filter
        (fun r => (r.id : Int) == idVal && r.usuario == rawUsuario)).isEmpty then
      (.notFound, db)
    else
      let kept := db.rows.filter
        (fun r => !((r.id : Int) == idVal && r.usuario == rawUsuario))
      (.deleted, { db with rows := kept })

/-- A row of the users table. -/
structure User where
  id : Nat
  email : String
  passwordHash : String
  name : String
deriving Repr, DecidableEq

/-- Observable response of POST /api/login (the random session token is not
modelled; no claim depends on it). -/
inductive LoginResponse where
  | badRequest (message : String)
  | unauthorized (message : String)
  | ok (id : Nat) (email name : String)
deriving Repr, DecidableEq

/-- The POST /api/login handler. The zod email-shape check and the bcrypt
comparison are external library code and are passed in as parameters. -/
def login (emailShapeOk : String → Bool)
    (bcryptCompare : String → String → Bool) (users : List User)
    (email password : String) : LoginResponse :=
  if ¬ (emailShapeOk email && 6 ≤ password.length) then
    .badRequest "Datos de entrada inválidos"
  else
    match users.find? (fun u => u.email == email) with
    | none => .unauthorized "Credenciales inválidas"
    | some foundUser =>
      if ¬ bcryptCompare password foundUser.passwordHash then
        .unauthorized "Credenciales inválidas"
      else .ok foundUser.id foundUser.email foundUser.name

/-! ## Lemmas about the string model -/

theorem dropWhile_eq_self_of_head {p : Char → Bool} {l : List Char}
    (h : ∀ c ∈ l.head?, p c = false) : l.dropWhile p = l := by
  cases l with
  | nil => rfl
  | cons c t =>
      have hc : p c = false := h c rfl
      simp [List.dropWhile_cons, hc]

theorem head?_dropWhile_false {p : Char → Bool} {l : List Char} {c : Char}
    (h : (l.dropWhile p).head? = some c) : p c = false := by
  have h2 := List.head?_dropWhile_not p l
  rw [h] at h2
  exact h2

theorem trimChars_getLast {l : List Char} {c : Char}
    (h : (trimChars l).getLast? = some c) : isJsWhitespace c = false := by
  unfold trimChars at h
  rw [List.getLast?_reverse] at h
  exact head?_dropWhile_false h

theorem trimChars_head {l : List Char} {c : Char}
    (h : (trimChars l).head? = some c) : isJsWhitespace c = false := by
  unfold trimChars at h
  rw [List.head?_reverse] at h
  obtain ⟨t, ht⟩ :=
    List.dropWhile_suffix (l := (l.dropWhile isJsWhitespace).reverse)
      isJsWhitespace
  have hgl : ((l.dropWhile isJsWhitespace).reverse).getLast? = some c := by
    rw [← ht, List.getLast?_append, h]
    rfl
  rw [List.getLast?_reverse] at hgl
  exact head?_dropWhile_false hgl

theorem trimChars_eq_self {l : List Char}
    (hh : ∀ c ∈ l.head?, isJsWhitespace c = false)
    (hl : ∀ c ∈ l.getLast?, isJsWhitespace c = false) : trimChars l = l := by
  have h1 : l.dropWhile isJsWhitespace = l := dropWhile_eq_self_of_head hh
  have h2 : l.reverse.dropWhile isJsWhitespace = l.reverse := by
    apply dropWhile_eq_self_of_head
    intro c hc
    rw [List.head?_reverse] at hc
    exact hl c hc
  unfold trimChars
  rw [h1, h2, List.reverse_reverse]

theorem trimChars_idem (l : List Char) : trimChars (trimChars l) = trimChars l := by
  apply trimChars_eq_self
  · intro c hc
    exact trimChars_head hc
  · intro c hc
    exact trimChars_getLast hc

theorem jsTrim_jsTrim (s : String) : jsTrim (jsTrim s) = jsTrim s := by
  show String.mk (trimChars (trimChars s.data)) = String.mk (trimChars s.data)
  rw [trimChars_idem]

theorem normId_jsTrim (s : String) : normId (jsTrim s) = normId s := by
  unfold normId
  rw [jsTrim_jsTrim]

/-! ## Lemmas about the intra-batch duplicate scan -/

theorem lookupSeen_seenOf (n : String) (pre : List Valor) :
    lookupSeen n (seenOf pre) =
      (pre.find? (fun v => normId v.identificacion == n)).map
        (fun v => (v.identificacion, v.dependencia)) := by
  induction pre with
  | nil => rfl
  | cons v t ih =>
      by_cases h : normId v.identificacion = n
      · simp [seenOf, lookupSeen, h]
      · simp only [seenOf, List.map_cons, lookupSeen, if_neg h]
        rw [List.find?_cons_of_neg _ (by simp [h])]
        exact ih

theorem seenOf_append_singleton (pre : List Valor) (r : Valor) :
    seenOf pre ++ [(normId r.identificacion, (r.identificacion, r.dependencia))] =
      seenOf (pre ++ [r]) := by
  simp [seenOf]

theorem scan_none_of_nodup (vs : List Valor) : ∀ pre : List Valor,
    (((pre ++ vs).map (fun v => normId v.identificacion)).Nodup) →
    scanDuplicados vs (seenOf pre) = none := by
  induction vs with
  | nil => intro pre _; rfl
  | cons r rest ih =>
      intro pre h
      have hnotin : normId r.identificacion ∉
          pre.map (fun v => normId v.identificacion) := by
        rw [List.map_append] at h
        have hd := (List.nodup_append.mp h).2.2
        intro hmem
        exact hd hmem (by simp)
      have hfind :
          pre.find? (fun v => normId v.identificacion == normId r.identificacion)
            = none := by
        rw [List.find?_eq_none]
        intro v hv hbeq
        exact hnotin (List.mem_map.mpr ⟨v, hv, by simpa using hbeq⟩)
      have hrec := ih (pre ++ [r])
        (by rw [List.append_assoc, List.singleton_append]; exact h)
      simp only [scanDuplicados, lookupSeen_seenOf, hfind, Option.map_none']
      rw [seenOf_append_singleton]
      exact hrec

theorem scan_nodup_of_none (vs : List Valor) : ∀ pre : List Valor,
    ((pre.map (fun v => normId v.identificacion)).Nodup) →
    scanDuplicados vs (seenOf pre) = none →
    ((pre ++ vs).map (fun v => normId v.identificacion)).Nodup := by
  induction vs with
  | nil =>
      intro pre h _
      simpa using h
  | cons r rest ih =>
      intro pre hpre hscan
      cases hfind :
          pre.find? (fun v => normId v.identificacion == normId r.identificacion)
        with
      | some v0 =>
          exfalso
          simp only [scanDuplicados, lookupSeen_seenOf, hfind,
            Option.map_some'] at hscan
          exact Option.noConfusion hscan
      | none =>
          have hnotin : normId r.identificacion ∉
              pre.map (fun v => normId v.identificacion) := by
            rw [List.find?_eq_none] at hfind
            intro hmem
            obtain ⟨v, hv, hveq⟩ := List.mem_map.mp hmem
            exact hfind v hv (by simp [hveq])
          have hpre2 :
              ((pre ++ [r]).map (fun v => normId v.identificacion)).Nodup := by
            rw [List.map_append, List.nodup_append]
            refine ⟨hpre, by simp, ?_⟩
            intro a ha hb
            simp only [List.map_cons, List.map_nil, List.mem_singleton] at hb
            exact hnotin (hb ▸ ha)
          have hscan2 : scanDuplicados rest (seenOf (pre ++ [r])) = none := by
            simpa only [scanDuplicados, lookupSeen_seenOf, hfind,
              Option.map_none', seenOf_append_singleton] using hscan
          have := ih (pre ++ [r]) hpre2 hscan2
          rw [List.append_assoc, List.singleton_append] at this
          exact this

theorem scan_some_find (vs : List Valor) :
    ∀ (pre : List Valor) (ident dep : String),
    scanDuplicados vs (seenOf pre) = some (ident, dep) →
    ∃ v0, (pre ++ vs).find?
        (fun v => normId v.identificacion == normId ident) = some v0 ∧
      v0.dependencia = dep := by
  induction vs with
  | nil =>
      intro pre ident dep h
      exact absurd h (by simp [scanDuplicados])
  | cons r rest ih =>
      intro pre ident dep hscan
      cases hfind :
          pre.find? (fun v => normId v.identificacion == normId r.identificacion)
        with
      | some v0 =>
          simp only [scanDuplicados, lookupSeen_seenOf, hfind, Option.map_some',
            Option.some.injEq, Prod.mk.injEq] at hscan
          obtain ⟨h1, h2⟩ := hscan
          subst h1
          refine ⟨v0, ?_, h2⟩
          rw [List.find?_append, hfind]
          rfl
      | none =>
          simp only [scanDuplicados, lookupSeen_seenOf, hfind, Option.map_none',
            seenOf_append_singleton] at hscan
          obtain ⟨v0, hv0, hdep⟩ := ih (pre ++ [r]) ident dep hscan
          refine ⟨v0, ?_, hdep⟩
          rw [List.append_assoc, List.singleton_append] at hv0
          exact hv0

/-! ## Lemmas about dedupFirst -/

theorem mem_dedupFirst {x : String} : ∀ {l : List String},
    x ∈ dedupFirst l ↔ x ∈ l
  | [] => Iff.rfl
  | y :: rest => by
      simp only [dedupFirst, List.mem_cons, List.mem_filter]
      by_cases hxy : x = y
      · simp [hxy]
      · simp [hxy, mem_dedupFirst (l := rest)]

theorem nodup_dedupFirst : ∀ l : List String, (dedupFirst l).Nodup
  | [] => List.nodup_nil
  | y :: rest => by
      simp only [dedupFirst, List.nodup_cons]
      constructor
      · intro hmem
        have := (List.mem_filter.mp hmem).2
        simp at this
      · exact (nodup_dedupFirst rest).filter _

/-! ## Lemmas about the POST handler -/

theorem mkValores_normIds (usuario : String) (rs : List RegistroEntrada) :
    (mkValores usuario rs).map (fun v => normId v.identificacion) =
      rs.map (fun r => normId r.identificacion) := by
  unfold mkValores
  rw [List.map_map]
  apply List.map_congr_left
  intro r _
  show normId (jsTrim r.identificacion) = normId r.identificacion
  exact normId_jsTrim r.identificacion

theorem mem_insertRows {now : Nat} {s : StoredRegistro} :
    ∀ {nextId : Nat} {vs : List Valor}, s ∈ insertRows now nextId vs →
      ∃ v ∈ vs, ∃ i, s = storedOfValor i now v := by
  intro nextId vs
  induction vs generalizing nextId with
  | nil => intro h; simp [insertRows] at h
  | cons v t ih =>
      intro h
      simp only [insertRows, List.mem_cons] at h
      rcases h with h | h
      · exact ⟨v, by simp, nextId, h⟩
      · obtain ⟨w, hw, i, hi⟩ := ih h
        exact ⟨w, by simp [hw], i, hi⟩

/-- C1: a batch containing two records whose identifications coincide after
trimming and upper-casing is rejected by POST /api/registros with a payload
conflict whose reported dependencia is the (trimmed) dependencia of the
first record in the batch carrying the repeated identification. -/
theorem C1_intra_batch_duplicate_conflict (now : Nat) (db : DB)
    (usuario : String) (rs : List RegistroEntrada)
    (hvalid : validRegistrosBody usuario rs = true)
    (husr : jsTrim usuario ≠ "")
    (hdup : ¬ (rs.map (fun r => normId r.identificacion)).Nodup) :
    ∃ ident dep,
      postRegistros now db usuario rs =
        (PostResponse.conflictResp ident dep ConflictSource.payload, db) ∧
      ∃ r0,
        rs.find? (fun r => normId r.identificacion == normId ident) = some r0 ∧
        jsTrim r0.dependencia = dep := by
  cases hscan : scanDuplicados (mkValores usuario rs) [] with
  | none =>
      exfalso
      apply hdup
      have hn := scan_nodup_of_none (mkValores usuario rs) [] (by simp)
        (by exact hscan)
      rw [List.nil_append, mkValores_normIds] at hn
      exact hn
  | some c =>
      obtain ⟨ident, dep⟩ := c
      refine ⟨ident, dep, ?_, ?_⟩
      · simp only [postRegistros, hvalid, husr]
        simp [hscan]
      · have hfound := scan_some_find (mkValores usuario rs) [] ident dep
          (by exact hscan)
        rw [List.nil_append] at hfound
        obtain ⟨v0, hv0, hdep⟩ := hfound
        unfold mkValores at hv0
        rw [List.find?_map] at hv0
        have hpred : ((fun v : Valor => normId v.identificacion == normId ident)
              ∘ mkValor (jsTrim usuario)) =
            (fun r : RegistroEntrada =>
              normId r.identificacion == normId ident) := by
          funext r
          show (normId (jsTrim r.identificacion) == normId ident) = _
          rw [normId_jsTrim]
        rw [hpred] at hv0
        cases hfr : rs.find?
            (fun r => normId r.identificacion == normId ident) with
        | none =>
            rw [hfr] at hv0
            exact absurd hv0 (by simp)
        | some r0 =>
            rw [hfr] at hv0
            simp only [Option.map_some', Option.some.injEq] at hv0
            rw [← hv0] at hdep
            exact ⟨r0, rfl, hdep⟩

/-- C2: POST /api/registros is all-or-nothing — every rejecting branch
leaves the store untouched, and the created branch inserts exactly the whole
batch in one statement. -/
theorem C2_all_or_nothing (now : Nat) (db : DB) (usuario : String)
    (rs : List RegistroEntrada) :
    ((postRegistros now db usuario rs).2 = db ∧
      ∀ n, (postRegistros now db usuario rs).1 ≠ PostResponse.created n) ∨
    ((postRegistros now db usuario rs).1 = PostResponse.created rs.length ∧
      (postRegistros now db usuario rs).2.rows =
        db.rows ++ insertRows now db.nextId (mkValores usuario rs)) := by
  simp only [postRegistros]
  split
  · exact Or.inl ⟨rfl, by simp⟩
  · split
    · exact Or.inl ⟨rfl, by simp⟩
    · split
      · exact Or.inl ⟨rfl, by simp⟩
      · split
        · exact Or.inl ⟨rfl, by simp⟩
        · refine Or.inr ⟨?_, ?_⟩
          · simp [mkValores]
          · simp [insertValores]

/-- C3: once the intra-batch scan has passed, POST /api/registros answers a
database-sourced conflict exactly when some persisted identification is
string-equal to the trimmed identification of some batch record. -/
theorem C3_storage_conflict_iff (now : Nat) (db : DB) (usuario : String)
    (rs : List RegistroEntrada)
    (hvalid : validRegistrosBody usuario rs = true)
    (husr : jsTrim usuario ≠ "")
    (hscan : scanDuplicados (mkValores usuario rs) [] = none) :
    ((∃ ident dep, (postRegistros now db usuario rs).1 =
        PostResponse.conflictResp ident dep ConflictSource.database) ↔
      ∃ s ∈ db.rows, ∃ r ∈ rs, s.identificacion = jsTrim r.identificacion) := by
  have hmem : ∀ x : String,
      (x ∈ dedupFirst ((mkValores usuario rs).map
          (fun v => v.identificacion)) ↔
        ∃ r ∈ rs, jsTrim r.identificacion = x) := by
    intro x
    rw [mem_dedupFirst, List.mem_map]
    unfold mkValores
    constructor
    · rintro ⟨v, hv, hvx⟩
      obtain ⟨r, hr, rfl⟩ := List.mem_map.mp hv
      exact ⟨r, hr, hvx⟩
    · rintro ⟨r, hr, hrx⟩
      exact ⟨mkValor (jsTrim usuario) r, List.mem_map.mpr ⟨r, hr, rfl⟩, hrx⟩
  have hrs : rs ≠ [] := by
    intro he
    subst he
    simp [validRegistrosBody] at hvalid
  have hlen : 0 < (dedupFirst ((mkValores usuario rs).map
      (fun v => v.identificacion))).length := by
    cases rs with
    | nil => exact absurd rfl hrs
    | cons a t => simp [mkValores, dedupFirst]
  cases hc : db.rows.filter
      (fun s => decide (s.identificacion ∈ dedupFirst ((mkValores usuario rs).map
        (fun v => v.identificacion)))) with
  | nil =>
      have hresp : (postRegistros now db usuario rs).1 =
          PostResponse.created (mkValores usuario rs).length := by
        simp [postRegistros, hvalid, husr, hscan, hlen, hc]
      constructor
      · rintro ⟨ident, dep, habs⟩
        rw [hresp] at habs
        exact absurd habs (by simp)
      · rintro ⟨s, hs, r, hr, heq⟩
        exfalso
        rw [List.filter_eq_nil_iff] at hc
        have := hc s hs
        rw [decide_eq_true_eq] at this
        apply this
        rw [hmem s.identificacion]
        exact ⟨r, hr, heq.symm⟩
  | cons c t =>
      have hresp : (postRegistros now db usuario rs).1 =
          PostResponse.conflictResp c.identificacion c.dependencia
            ConflictSource.database := by
        simp [postRegistros, hvalid, husr, hscan, hlen, hc]
      constructor
      · intro _
        have hcmem : c ∈ db.rows.filter
            (fun s => decide (s.identificacion ∈
              dedupFirst ((mkValores usuario rs).map
                (fun v => v.identificacion)))) := by
          rw [hc]
          exact List.mem_cons_self c t
        have hcf := List.mem_filter.mp hcmem
        have hcid := of_decide_eq_true hcf.2
        obtain ⟨r, hr, heq⟩ := (hmem c.identificacion).mp hcid
        exact ⟨c, hcf.1, r, hr, heq.symm⟩
      · intro _
        exact ⟨c.identificacion, c.dependencia, hresp⟩

/-- C9: every row present after a POST /api/registros call either was
already stored or has every text field invariant under trimming — records
created by the endpoint carry no leading or trailing whitespace. -/
theorem C9_inserted_rows_trimmed (now : Nat) (db : DB) (usuario : String)
    (rs : List RegistroEntrada) :
    ∀ s ∈ (postRegistros now db usuario rs).2.rows,
      s ∈ db.rows ∨
        (jsTrim s.dependencia = s.dependencia ∧
          jsTrim s.identificacion = s.identificacion ∧
          jsTrim s.grado = s.grado ∧
          jsTrim s.nombresCompletos = s.nombresCompletos ∧
          jsTrim s.motivo = s.motivo ∧
          jsTrim s.detalle = s.detalle ∧
          jsTrim s.usuario = s.usuario) := by
  intro s hs
  simp only [postRegistros] at hs
  split at hs
  · exact Or.inl hs
  · split at hs
    · exact Or.inl hs
    · split at hs
      · exact Or.inl hs
      · split at hs
        · exact Or.inl hs
        · simp only [insertValores, List.mem_append] at hs
          rcases hs with hs | hs
          · exact Or.inl hs
          · right
            obtain ⟨v, hv, i, rfl⟩ := mem_insertRows hs
            obtain ⟨r, _, rfl⟩ := List.mem_map.mp hv
            refine ⟨?_, ?_, ?_, ?_, ?_, ?_, ?_⟩ <;>
              exact jsTrim_jsTrim _

/-! ## Lemmas about the PDF column width allocation -/

theorem allocLoop_sum (bodyWidth : Rat) :
    ∀ (defs : List ColumnDef) (remaining : Rat),
      (allocLoop bodyWidth remaining defs).1.sum +
        (allocLoop bodyWidth remaining defs).2 = remaining
  | [], remaining => by simp [allocLoop]
  | c :: rest, remaining => by
      simp only [allocLoop, List.sum_cons]
      rw [add_assoc, allocLoop_sum bodyWidth rest]
      ring

theorem allocLoop_length (bodyWidth : Rat) :
    ∀ (defs : List ColumnDef) (remaining : Rat),
      (allocLoop bodyWidth remaining defs).1.length = defs.length
  | [], remaining => by simp [allocLoop]
  | _ :: rest, remaining => by
      simp only [allocLoop, List.length_cons]
      rw [allocLoop_length bodyWidth rest]

theorem allocLoop_nonneg (bodyWidth : Rat) :
    ∀ (defs : List ColumnDef) (remaining : Rat), defs ≠ [] →
      0 ≤ (allocLoop bodyWidth remaining defs).2
  | [], _, h => absurd rfl h
  | c :: rest, remaining, _ => by
      cases rest with
      | nil =>
          have hval : (allocLoop bodyWidth remaining [c]).2 =
              remaining - (if remaining < max remaining c.minWidth
                then remaining else max remaining c.minWidth) := rfl
          rw [hval]
          by_cases hlt : remaining < max remaining c.minWidth
          · rw [if_pos hlt]
            simp
          · rw [if_neg hlt]
            simp only [sub_nonneg]
            exact not_lt.mp hlt
      | cons c2 r2 =>
          simp only [allocLoop]
          exact allocLoop_nonneg bodyWidth (c2 :: r2) _ (by simp)

theorem bumpLast_sum (extra : Rat) :
    ∀ ws : List Rat, ws ≠ [] → (bumpLast extra ws).sum = ws.sum + extra
  | [], h => absurd rfl h
  | [w], _ => by simp [bumpLast]
  | w :: x :: ws, _ => by
      simp only [bumpLast, List.sum_cons]
      rw [bumpLast_sum extra (x :: ws) (by simp), List.sum_cons]
      ring

/-- C4: for every non-empty list of column definitions, whatever the ratios
and minimum widths, the allocated column widths sum exactly to the usable
body width. -/
theorem C4_column_widths_sum (bodyWidth : Rat) (defs : List ColumnDef)
    (h : defs ≠ []) : (columnWidths bodyWidth defs).sum = bodyWidth := by
  simp only [columnWidths]
  have hsum := allocLoop_sum bodyWidth defs bodyWidth
  have hne : (allocLoop bodyWidth bodyWidth defs).1 ≠ [] := by
    intro he
    have hlen := allocLoop_length bodyWidth defs bodyWidth
    rw [he] at hlen
    exact h (List.length_eq_zero.mp hlen.symm)
  split
  · rename_i hcond
    rw [bumpLast_sum _ _ hne]
    linarith
  · rename_i hcond
    have hnn := allocLoop_nonneg bodyWidth defs bodyWidth h
    have hnpos : ¬ 0 < (allocLoop bodyWidth bodyWidth defs).2 :=
      fun hpos => hcond ⟨hpos, hne⟩
    have hz : (allocLoop bodyWidth bodyWidth defs).2 = 0 :=
      le_antisymm (not_lt.mp hnpos) hnn
    linarith

/-- C4 witness: the seven columns of the source, at the A4-landscape body
width of 761.89 points. -/
theorem C4_column_widths_sum_witness :
    columnDefinitions ≠ [] ∧
      (columnWidths (76189 / 100) columnDefinitions).sum = 76189 / 100 :=
  ⟨by decide, C4_column_widths_sum (76189 / 100) columnDefinitions (by decide)⟩

/-! ## Lemmas about the per-unit aggregation -/

theorem insertByTotalDesc_perm (x : String × Nat) (l : List (String × Nat)) :
    List.Perm (insertByTotalDesc x l) (x :: l) := by
  induction l with
  | nil => exact List.Perm.refl _
  | cons y rest ih =>
      simp only [insertByTotalDesc]
      split
      · exact List.Perm.refl _
      · exact (ih.cons y).trans (List.Perm.swap x y rest)

theorem sortByTotalDesc_perm (l : List (String × Nat)) :
    List.Perm (sortByTotalDesc l) l := by
  induction l with
  | nil => exact List.Perm.refl _
  | cons x rest ih =>
      simp only [sortByTotalDesc, List.foldr_cons]
      exact (insertByTotalDesc_perm x _).trans (ih.cons x)

theorem insertByTotalDesc_sorted {x : String × Nat} {l : List (String × Nat)}
    (h : l.Pairwise (fun a b => b.2 ≤ a.2)) :
    (insertByTotalDesc x l).Pairwise (fun a b => b.2 ≤ a.2) := by
  induction l with
  | nil => simp [insertByTotalDesc]
  | cons y rest ih =>
      rw [List.pairwise_cons] at h
      simp only [insertByTotalDesc]
      split
      · rename_i hyx
        rw [List.pairwise_cons]
        refine ⟨?_, List.pairwise_cons.mpr h⟩
        intro b hb
        rcases List.mem_cons.mp hb with rfl | hb2
        · exact hyx
        · exact le_trans (h.1 b hb2) hyx
      · rename_i hyx
        rw [List.pairwise_cons]
        constructor
        · intro b hb
          rcases List.mem_cons.mp ((insertByTotalDesc_perm x rest).mem_iff.mp hb)
            with rfl | hb2
          · exact le_of_not_le hyx
          · exact h.1 b hb2
        · exact ih h.2

theorem sortByTotalDesc_sorted (l : List (String × Nat)) :
    (sortByTotalDesc l).Pairwise (fun a b => b.2 ≤ a.2) := by
  induction l with
  | nil => simp [sortByTotalDesc]
  | cons x rest ih => exact insertByTotalDesc_sorted ih

theorem sum_filter_lengths : ∀ (keys l : List String), keys.Nodup →
    (∀ x ∈ l, x ∈ keys) →
    (keys.map (fun k => (l.filter (fun y => y == k)).length)).sum = l.length
  | [], l, _, hall => by
      have hl : l = [] :=
        List.eq_nil_iff_forall_not_mem.mpr fun a ha => by
          exact absurd (hall a ha) (by simp)
      subst hl
      simp
  | k :: ks, l, hnd, hall => by
      rw [List.map_cons, List.sum_cons]
      have hnd2 := List.nodup_cons.mp hnd
      have hmapcongr : ks.map (fun j => (l.filter (fun y => y == j)).length) =
          ks.map (fun j => ((l.filter (fun y => !(y == k))).filter
            (fun y => y == j)).length) := by
        apply List.map_congr_left
        intro j hj
        have hjk : j ≠ k := fun e => hnd2.1 (e ▸ hj)
        rw [List.filter_filter]
        congr 1
        apply List.filter_congr
        intro y _
        by_cases hyj : y = j
        · subst hyj
          simp [hjk]
        · simp [hyj]
      rw [hmapcongr,
        sum_filter_lengths ks (l.filter (fun y => !(y == k))) hnd2.2 ?hall2]
      case hall2 =>
        intro x hx
        have hx2 := List.mem_filter.mp hx
        rcases List.mem_cons.mp (hall x hx2.1) with rfl | hmem
        · exact absurd hx2.2 (by simp)
        · exact hmem
      have hperm := (List.filter_append_perm (fun y => y == k) l).length_eq
      rw [List.length_append] at hperm
      exact hperm

/-- C5: the per-unit aggregation sums to the total number of stored rows, is
sorted by descending count, and contains exactly the units having at least
one stored row, each paired with its row count over all owning users. -/
theorem C5_por_dependencia (rows : List StoredRegistro) :
    ((porDependencia rows).map (fun p => p.2)).sum = rows.length ∧
    (porDependencia rows).Pairwise (fun a b => b.2 ≤ a.2) ∧
    ∀ d : String,
      ((∃ r ∈ rows, r.dependencia = d) ↔
        (d, (rows.filter (fun r => r.dependencia == d)).length) ∈
          porDependencia rows) := by
  have hperm := sortByTotalDesc_perm
    ((dedupFirst (rows.map (fun r => r.dependencia))).map
      (fun d => (d, (rows.filter (fun r => r.dependencia == d)).length)))
  refine ⟨?_, sortByTotalDesc_sorted _, ?_⟩
  · have hs := (hperm.map (fun p : String × Nat => p.2)).sum_eq
    unfold porDependencia
    rw [hs, List.map_map]
    have : ((fun p : String × Nat => p.2) ∘
        (fun d => (d, (rows.filter (fun r => r.dependencia == d)).length))) =
        (fun d => (rows.filter (fun r => r.dependencia == d)).length) := rfl
    rw [this]
    have hfl : ∀ d : String, (rows.filter (fun r => r.dependencia == d)).length =
        ((rows.map (fun r => r.dependencia)).filter (fun y => y == d)).length := by
      intro d
      rw [List.filter_map, List.length_map]
      rfl
    rw [List.map_congr_left (fun d _ => hfl d)]
    rw [sum_filter_lengths _ _ (nodup_dedupFirst _)
      (fun x hx => mem_dedupFirst.mpr hx)]
    exact List.length_map rows _
  · intro d
    unfold porDependencia
    rw [hperm.mem_iff]
    constructor
    · rintro ⟨r, hr, rfl⟩
      apply List.mem_map.mpr
      refine ⟨r.dependencia, ?_, rfl⟩
      exact mem_dedupFirst.mpr (List.mem_map.mpr ⟨r, hr, rfl⟩)
    · intro hmem
      obtain ⟨d0, hd0, heq⟩ := List.mem_map.mp hmem
      have hd : d0 = d := congrArg Prod.fst heq
      subst hd
      obtain ⟨r, hr, hrd⟩ := List.mem_map.mp (mem_dedupFirst.mp hd0)
      exact ⟨r, hr, hrd⟩

/-- C6: with an empty record set the PDF renderer emits exactly the header
block followed by the one-line no-records message, and never a table header,
a table row, or a QR image. -/
theorem C6_empty_records_pdf (m : PdfMetrics)
    (hasWatermark hasHeader hasQr : Bool) (formatDate : Nat → String)
    (usuario generadoStr verificationCode : String) (yStart : Rat) :
    renderPdf m hasWatermark hasHeader hasQr formatDate usuario generadoStr
        verificationCode yStart [] =
      (if hasWatermark then [PdfOp.watermark] else []) ++
        (if hasHeader then [PdfOp.headerImage] else []) ++
        [ PdfOp.text tituloReporte
        , PdfOp.text ("Usuario: " ++ usuario)
        , PdfOp.text ("Generado: " ++ generadoStr)
        , PdfOp.text ("Código de verificación: " ++ verificationCode)
        , PdfOp.text noRecordsMessage ] ∧
    ∀ op ∈ renderPdf m hasWatermark hasHeader hasQr formatDate usuario
        generadoStr verificationCode yStart [],
      op ≠ PdfOp.tableHeader ∧ (∀ cells, op ≠ PdfOp.tableRow cells) ∧
        op ≠ PdfOp.qrImage := by
  have heq : renderPdf m hasWatermark hasHeader hasQr formatDate usuario
      generadoStr verificationCode yStart [] =
      (if hasWatermark then [PdfOp.watermark] else []) ++
        (if hasHeader then [PdfOp.headerImage] else []) ++
        [ PdfOp.text tituloReporte
        , PdfOp.text ("Usuario: " ++ usuario)
        , PdfOp.text ("Generado: " ++ generadoStr)
        , PdfOp.text ("Código de verificación: " ++ verificationCode)
        , PdfOp.text noRecordsMessage ] := by
    simp [renderPdf]
  refine ⟨heq, ?_⟩
  intro op hop
  rw [heq] at hop
  rcases List.mem_append.mp hop with hAB | hC
  · rcases List.mem_append.mp hAB with hA | hB
    · have hw : op = PdfOp.watermark := by
        cases hasWatermark
        · simp at hA
        · simpa using hA
      subst hw
      exact ⟨by simp, by simp, by simp⟩
    · have hh : op = PdfOp.headerImage := by
        cases hasHeader
        · simp at hB
        · simpa using hB
      subst hh
      exact ⟨by simp, by simp, by simp⟩
  · simp only [List.mem_cons, List.mem_singleton, List.not_mem_nil,
      or_false] at hC
    rcases hC with rfl | rfl | rfl | rfl | rfl <;>
      exact ⟨by simp, by simp, by simp⟩

/-- C6 witness: the no-records text is in the trace of an empty render and
is none of the forbidden operations. -/
theorem C6_empty_records_pdf_witness :
    PdfOp.text noRecordsMessage ≠ PdfOp.tableHeader ∧
      (∀ cells, PdfOp.text noRecordsMessage ≠ PdfOp.tableRow cells) ∧
      PdfOp.text noRecordsMessage ≠ PdfOp.qrImage :=
  (C6_empty_records_pdf ⟨842, 40, 40, 26, fun _ => 20⟩ true true true
    (fun _ => "f") "u" "g" "c" 0).2 (PdfOp.text noRecordsMessage) (by decide)

/-- C7: DELETE /api/registros/:id deletes exactly the rows matching both the
parsed id and the trimmed usuario; when no stored row matches (absent id or
different owner) it answers 404 and leaves the store unchanged. -/
theorem C7_delete_owner_only (db : DB) (idParam : String) (u : String)
    (idVal : Int) (hid : jsParseInt idParam = some idVal)
    (hu : jsTrim u ≠ "") :
    ((¬ ∃ r ∈ db.rows, (r.id : Int) = idVal ∧ r.usuario = jsTrim u) →
        deleteRegistro db idParam (some u) = (DeleteResponse.notFound, db)) ∧
    ((∃ r ∈ db.rows, (r.id : Int) = idVal ∧ r.usuario = jsTrim u) →
        (deleteRegistro db idParam (some u)).1 = DeleteResponse.deleted ∧
        (deleteRegistro db idParam (some u)).2.rows =
          db.rows.filter
            (fun r => !((r.id : Int) == idVal && r.usuario == jsTrim u))) := by
  constructor
  · intro hno
    have hfil : db.rows.filter
        (fun r => (r.id : Int) == idVal && r.usuario == jsTrim u) = [] := by
      rw [List.filter_eq_nil_iff]
      intro r hr hcontr
      apply hno
      refine ⟨r, hr, ?_⟩
      simpa using hcontr
    simp [deleteRegistro, hid, hu, hfil]
  · rintro ⟨r, hr, h1, h2⟩
    have hfil : (db.rows.filter
        (fun r => (r.id : Int) == idVal && r.usuario == jsTrim u)).isEmpty
          = false := by
      rw [List.isEmpty_eq_false]
      intro he
      rw [List.filter_eq_nil_iff] at he
      exact he r hr (by simp [h1, h2])
    constructor
    · simp [deleteRegistro, hid, hu, hfil]
    · simp [deleteRegistro, hid, hu, hfil]

/-- C7 witness: deleting record 7 as x@y.com while it belongs to z@y.com
yields 404 and leaves the store unchanged. -/
theorem C7_delete_owner_only_witness :
    jsParseInt "7" = some 7 ∧ jsTrim "x@y.com" ≠ "" ∧
    deleteRegistro ⟨[⟨7, "D", "I", "G", "N", "M", "", "z@y.com", 0⟩], 8⟩ "7"
        (some "x@y.com") =
      (DeleteResponse.notFound,
        ⟨[⟨7, "D", "I", "G", "N", "M", "", "z@y.com", 0⟩], 8⟩) :=
  ⟨by decide, by decide,
    (C7_delete_owner_only ⟨[⟨7, "D", "I", "G", "N", "M", "", "z@y.com", 0⟩], 8⟩
      "7" "x@y.com" 7 (by decide) (by decide)).1 (by decide)⟩

theorem login_unauthorized_message (emailShapeOk : String → Bool)
    (bcryptCompare : String → String → Bool) (users : List User)
    (email password msg : String)
    (h : login emailShapeOk bcryptCompare users email password =
      LoginResponse.unauthorized msg) : msg = "Credenciales inválidas" := by
  unfold login at h
  split at h
  · exact absurd h (by simp)
  · split at h
    · injection h with h2
      exact h2.symm
    · split at h
      · injection h with h2
        exact h2.symm
      · exact absurd h (by simp)

/-- C8: two failed logins carry the same 401 message, whether the email was
unknown or the password wrong — the response does not reveal which
credential field failed. -/
theorem C8_uniform_login_failure
    (e1 : String → Bool) (b1 : String → String → Bool) (us1 : List User)
    (em1 p1 m1 : String)
    (e2 : String → Bool) (b2 : String → String → Bool) (us2 : List User)
    (em2 p2 m2 : String)
    (h1 : login e1 b1 us1 em1 p1 = LoginResponse.unauthorized m1)
    (h2 : login e2 b2 us2 em2 p2 = LoginResponse.unauthorized m2) :
    m1 = m2 := by
  rw [login_unauthorized_message e1 b1 us1 em1 p1 m1 h1,
    login_unauthorized_message e2 b2 us2 em2 p2 m2 h2]

/-- C8 witness: an unknown email and a wrong password produce the same
message. -/
theorem C8_uniform_login_failure_witness :
    login (fun _ => true) (fun _ _ => true) [] "a@b.c" "secret1" =
        LoginResponse.unauthorized "Credenciales inválidas" ∧
    login (fun _ => true) (fun _ _ => false)
        [⟨1, "a@b.c", "h", "n"⟩] "a@b.c" "secret1" =
      LoginResponse.unauthorized "Credenciales inválidas" ∧
    ("Credenciales inválidas" : String) = "Credenciales inválidas" :=
  have hA : login (fun _ => true) (fun _ _ => true) [] "a@b.c" "secret1" =
      LoginResponse.unauthorized "Credenciales inválidas" := by decide
  have hB : login (fun _ => true) (fun _ _ => false)
      [⟨1, "a@b.c", "h", "n"⟩] "a@b.c" "secret1" =
      LoginResponse.unauthorized "Credenciales inválidas" := by decide
  ⟨hA, hB, C8_uniform_login_failure _ _ _ _ _ _ _ _ _ _ _ _ hA hB⟩

/-- C10: when the id path parameter does not parse or the usuario query
parameter is missing or trims to the empty string, DELETE /api/registros/:id
answers 400 and the store is unchanged. -/
theorem C10_delete_invalid_input (db : DB) (idParam : String)
    (usuarioQuery : Option String)
    (h : jsParseInt idParam = none ∨
      (match usuarioQuery with
        | some u => jsTrim u
        | none => "") = "") :
    (∃ msg, (deleteRegistro db idParam usuarioQuery).1 =
        DeleteResponse.badRequest msg) ∧
    (deleteRegistro db idParam usuarioQuery).2 = db := by
  cases hp : jsParseInt idParam with
  | none =>
      constructor
      · exact ⟨"Identificador inválido.", by simp [deleteRegistro, hp]⟩
      · simp [deleteRegistro, hp]
  | some v =>
      rcases h with h | h
      · rw [hp] at h
        exact absurd h (by simp)
      · constructor
        · refine ⟨"Debe especificar el usuario para eliminar.", ?_⟩
          simp [deleteRegistro, hp, h]
        · simp [deleteRegistro, hp, h]

/-- C10 witness: a non-numeric id yields 400 and no change. -/
theorem C10_delete_invalid_input_witness :
    jsParseInt "abc" = none ∧
    ((∃ msg, (deleteRegistro ⟨[], 1⟩ "abc" (some "x")).1 =
        DeleteResponse.badRequest msg) ∧
      (deleteRegistro ⟨[], 1⟩ "abc" (some "x")).2 = ⟨[], 1⟩) :=
  ⟨by decide,
    C10_delete_invalid_input ⟨[], 1⟩ "abc" (some "x") (Or.inl (by decide))⟩

/-- C1 witness: the example batch of the specification, in which abc123 and
ABC123 collide and the conflict cites dependencia A. -/
theorem C1_intra_batch_duplicate_conflict_witness :
    validRegistrosBody "u"
        [⟨"A", "abc123", "g", "n", "m", ""⟩,
          ⟨"B", "ABC123", "g", "n", "m", ""⟩] = true ∧
    jsTrim "u" ≠ "" ∧
    ¬ (([⟨"A", "abc123", "g", "n", "m", ""⟩,
          ⟨"B", "ABC123", "g", "n", "m", ""⟩] :
        List RegistroEntrada).map (fun r => normId r.identificacion)).Nodup ∧
    ∃ ident dep,
      postRegistros 0 ⟨[], 1⟩ "u"
          [⟨"A", "abc123", "g", "n", "m", ""⟩,
            ⟨"B", "ABC123", "g", "n", "m", ""⟩] =
        (PostResponse.conflictResp ident dep ConflictSource.payload,
          ⟨[], 1⟩) ∧
      ∃ r0,
        ([⟨"A", "abc123", "g", "n", "m", ""⟩,
            ⟨"B", "ABC123", "g", "n", "m", ""⟩] :
          List RegistroEntrada).find?
            (fun r => normId r.identificacion == normId ident) = some r0 ∧
        jsTrim r0.dependencia = dep :=
  ⟨by decide, by decide, by decide,
    C1_intra_batch_duplicate_conflict 0 ⟨[], 1⟩ "u"
      [⟨"A", "abc123", "g", "n", "m", ""⟩, ⟨"B", "ABC123", "g", "n", "m", ""⟩]
      (by decide) (by decide) (by decide)⟩

/-- C3 witness: a stored identification ABC123 collides with a candidate
whose identification trims to ABC123, and the batch is rejected with a
database-sourced conflict. -/
theorem C3_storage_conflict_iff_witness :
    validRegistrosBody "u" [⟨"A", " ABC123 ", "g", "n", "m", ""⟩] = true ∧
    jsTrim "u" ≠ "" ∧
    scanDuplicados (mkValores "u" [⟨"A", " ABC123 ", "g", "n", "m", ""⟩]) []
      = none ∧
    ((∃ ident dep,
        (postRegistros 0 ⟨[⟨1, "X", "ABC123", "g", "n", "m", "", "w", 0⟩], 2⟩
            "u" [⟨"A", " ABC123 ", "g", "n", "m", ""⟩]).1 =
          PostResponse.conflictResp ident dep ConflictSource.database) ↔
      ∃ s ∈ (⟨[⟨1, "X", "ABC123", "g", "n", "m", "", "w", 0⟩], 2⟩ : DB).rows,
        ∃ r ∈ [(⟨"A", " ABC123 ", "g", "n", "m", ""⟩ : RegistroEntrada)],
          s.identificacion = jsTrim r.identificacion) :=
  ⟨by decide, by decide, by decide,
    C3_storage_conflict_iff 0
      ⟨[⟨1, "X", "ABC123", "g", "n", "m", "", "w", 0⟩], 2⟩ "u"
      [⟨"A", " ABC123 ", "g", "n", "m", ""⟩]
      (by decide) (by decide) (by decide)⟩

/-- C9 witness: a successful insertion of a record whose dependencia was
submitted with surrounding whitespace stores only trimmed fields. -/
theorem C9_inserted_rows_trimmed_witness :
    ((⟨1, "A", "abc", "g", "n", "m", "", "u", 0⟩ : StoredRegistro) ∈
        (postRegistros 0 ⟨[], 1⟩ "u"
          [⟨" A ", "abc", "g", "n", "m", ""⟩]).2.rows) ∧
    ((⟨1, "A", "abc", "g", "n", "m", "", "u", 0⟩ : StoredRegistro) ∈
        (⟨[], 1⟩ : DB).rows ∨
      (jsTrim "A" = "A" ∧ jsTrim "abc" = "abc" ∧ jsTrim "g" = "g" ∧
        jsTrim "n" = "n" ∧ jsTrim "m" = "m" ∧ jsTrim "" = "" ∧
        jsTrim "u" = "u")) :=
  ⟨by decide,
    C9_inserted_rows_trimmed 0 ⟨[], 1⟩ "u" [⟨" A ", "abc", "g", "n", "m", ""⟩]
      ⟨1, "A", "abc", "g", "n", "m", "", "u", 0⟩ (by decide)⟩

end Formularios
